import Mathlib

/-!
Shallow embedding of the Ping-Gamify backend: progress tracking, derived
counters, badge awarding, catalog deletion cascades and group membership,
translated from `src/backend/routes/*.js` and the mongoose schemas.

Conventions of the embedding: each Mongo document becomes a Lean structure
and each collection a list of documents; object ids and timestamps are
natural numbers; ratings are rationals (JavaScript numbers used only in
exact small arithmetic); a route handler becomes a pure function from a
store (plus the authenticated caller and the request parameters) to a new
store and a response, and a failing route returns the HTTP status code and
message that the source sends.
-/

namespace PingGamify

/-- JavaScript `Math.round` on exact rationals: the floor of `q + 1/2`
(Math.round rounds halves toward positive infinity). -/
def jsRound (q : ℚ) : ℤ := ⌊q + 1/2⌋

/-- One element of `taskProgress[i].studentUploads` (progress.model.js). -/
structure Upload where
  url : String
  originalName : String
  uploadedAt : Nat
deriving DecidableEq, Inhabited

/-- A file as delivered by multer to the submit-task route: the stored
filename and the original client filename. -/
structure FileUpload where
  filename : String
  originalname : String
deriving DecidableEq, Inhabited

/-- `taskProgressSchema` of progress.model.js.  `coachRating` defaults to
null (here `none`), `approved` is the tri-state null/true/false.
`seenByStudent` is read and written by the mark-seen route. -/
structure TaskProgressEntry where
  task : Nat
  completed : Bool := false
  completedAt : Option Nat := none
  coachRating : Option ℚ := none
  coachFeedback : String := ""
  coachRatedAt : Option Nat := none
  submittedForReview : Bool := false
  submittedAt : Option Nat := none
  studentUploads : List Upload := []
  reviewed : Bool := false
  approved : Option Bool := none
  reviewedAt : Option Nat := none
  reviewFeedback : String := ""
  seenByStudent : Bool := false
deriving DecidableEq, Inhabited

/-- `progressSchema` of progress.model.js; one document per (user, course),
with the denormalized `totalTasks`, `completedTasksCount`, `averageRating`. -/
structure ProgressDoc where
  user : Nat
  course : Nat
  completedTasks : List Nat := []
  taskProgress : List TaskProgressEntry := []
  totalTasks : Nat := 0
  completedTasksCount : Nat := 0
  averageRating : ℚ := 0
  lastActivity : Nat := 0
deriving DecidableEq, Inhabited

/-- task.model.js (only the fields the verified routes read). -/
structure TaskDoc where
  id : Nat
  skill : Nat
  contentUrls : List String := []
deriving DecidableEq, Inhabited

/-- skill.model.js. -/
structure SkillDoc where
  id : Nat
  course : Nat
  tasks : List Nat := []
deriving DecidableEq, Inhabited

/-- course.model.js. -/
structure CourseDoc where
  id : Nat
  coach : Nat
  students : List Nat := []
  skills : List Nat := []
deriving DecidableEq, Inhabited

/-- user.model.js (fields used by the verified routes). -/
structure UserDoc where
  id : Nat
  name : String
  enrolledCourses : List Nat := []
deriving DecidableEq, Inhabited

/-- student.model.js: the per-student profile holding the badge set. -/
structure StudentDoc where
  id : Nat
  name : String
  badges : List Nat := []
deriving DecidableEq, Inhabited

/-- badge.model.js: free-text criteria, matched literally by the evaluator. -/
structure BadgeDoc where
  id : Nat
  criteria : String
deriving DecidableEq, Inhabited

/-- group.model.js (fields read by the leave and remove-member routes). -/
structure GroupDoc where
  id : Nat
  creator : Nat
  members : List Nat := []
  coach : Option Nat := none
deriving DecidableEq, Inhabited

/-- The document store: one list per collection. -/
structure Store where
  courses : List CourseDoc := []
  skills : List SkillDoc := []
  tasks : List TaskDoc := []
  progresses : List ProgressDoc := []
  users : List UserDoc := []
  students : List StudentDoc := []
  badges : List BadgeDoc := []
deriving DecidableEq, Inhabited

/-! ## Progress model methods (src/unnamed/part_000, progress.model.js) -/

/-- `progressSchema.methods.getCompletionPercentage`:
`if (this.totalTasks === 0) return 0;
 return Math.round((this.completedTasksCount / this.totalTasks) * 100);` -/
def ProgressDoc.getCompletionPercentage (p : ProgressDoc) : ℤ :=
  if p.totalTasks = 0 then 0
  else jsRound (((p.completedTasksCount : ℚ) / (p.totalTasks : ℚ)) * 100)

/-- `progressSchema.methods.getAverageRating`: filter the task-progress
entries with a non-null `coachRating`, return 0 when none, otherwise
`Math.round((totalRating / ratedTasks.length) * 10) / 10`. -/
def ProgressDoc.getAverageRating (p : ProgressDoc) : ℚ :=
  let ratedTasks := p.taskProgress.filter (fun tp => tp.coachRating.isSome)
  if ratedTasks.length = 0 then 0
  else
    let totalRating := (ratedTasks.map (fun tp => tp.coachRating.getD 0)).sum
    ((jsRound ((totalRating / (ratedTasks.length : ℚ)) * 10) : ℚ)) / 10

/-! ## Spec-side formulations of the two derived statistics.
These follow the spec sentences, for the refinement claims C4 and C5:
"`getCompletionPercentage()` is 0 when `totalTasks == 0`; otherwise equals
`round(100 * completedTasksCount / totalTasks)`" and "`getAverageRating()`
is 0 when no task-progress entries are rated; otherwise the mean of rated
entries to one decimal place." -/

/-- Modelled from the spec: percentage as `round(100 * completed / total)`,
0 when the total is 0. -/
def specCompletionPercentage (p : ProgressDoc) : ℤ :=
  if p.totalTasks = 0 then 0
  else jsRound (100 * (p.completedTasksCount : ℚ) / (p.totalTasks : ℚ))

/-- The `coachRating` values of the rated task-progress entries. -/
def ratedValues (p : ProgressDoc) : List ℚ :=
  p.taskProgress.filterMap (fun tp => tp.coachRating)

/-- Rounding to one decimal place, the spec's `round to 1 decimal`. -/
def roundTo1 (x : ℚ) : ℚ := ((jsRound (x * 10) : ℚ)) / 10

/-- Modelled from the spec: 0 when no entries are rated, otherwise the
arithmetic mean of the rated values, rounded to one decimal place. -/
def specAverageRating (p : ProgressDoc) : ℚ :=
  if ratedValues p = [] then 0
  else roundTo1 ((ratedValues p).sum / ((ratedValues p).length : ℚ))

/-! ## Catalog helpers (the recomputation routine of progress.js) -/

/-- `Skill.find({course: courseId})`. -/
def skillsOfCourse (st : Store) (courseId : Nat) : List SkillDoc :=
  st.skills.filter (fun sk => sk.course == courseId)

/-- `.populate('tasks')` on a skill's task-reference list: resolve each
reference against the tasks collection; references that no longer resolve
are dropped by populate. -/
def populateTasks (st : Store) (refs : List Nat) : List TaskDoc :=
  refs.filterMap (fun tid => st.tasks.find? (fun t => t.id == tid))

/-- `skills.flatMap(skill => skill.tasks.map(task => task._id))` over the
populated skills of the course: the flattened task-id list recomputed from
the live catalog (progress.js 60-62 and 107-109). -/
def allCourseTaskIds (st : Store) (courseId : Nat) : List Nat :=
  (skillsOfCourse st courseId).flatMap
    (fun sk => (populateTasks st sk.tasks).map (fun t => t.id))

/-- `Course.findById(id)`. -/
def findCourse (st : Store) (courseId : Nat) : Option CourseDoc :=
  st.courses.find? (fun c => c.id == courseId)

/-! ## Progress store primitives -/

/-- The compound (user, course) key of the progress collection. -/
def progKey (userId courseId : Nat) (q : ProgressDoc) : Bool :=
  q.user == userId && q.course == courseId

/-- `Progress.findOne({user, course})`. -/
def findProgress (st : Store) (userId courseId : Nat) : Option ProgressDoc :=
  st.progresses.find? (progKey userId courseId)

/-- `new Progress({user, course, completedTasks: []})` when no record
exists yet, otherwise the found record. -/
def progressOrNew (st : Store) (userId courseId : Nat) : ProgressDoc :=
  (findProgress st userId courseId).getD
    {user := userId, course := courseId, completedTasks := []}

/-- `progress.save()`: replace the document carrying the same
(user, course) compound key when one exists (the schema's unique index
keeps at most one), otherwise insert the new document. -/
def saveProgress (st : Store) (p : ProgressDoc) : Store :=
  if (findProgress st p.user p.course).isSome then
    {st with progresses := (st.progresses.map
      (fun q => if progKey p.user p.course q then p else q))}
  else
    {st with progresses := st.progresses ++ [p]}

/-- The task-progress entry for `taskId`, `taskProgress.find(tp => tp.task === taskId)`. -/
def findTP (p : ProgressDoc) (taskId : Nat) : Option TaskProgressEntry :=
  p.taskProgress.find? (fun tp => tp.task == taskId)

/-- The fresh entry `{task: taskId, studentUploads: []}` pushed by
submit-task when none exists, otherwise the found entry. -/
def tpOrNew (p : ProgressDoc) (taskId : Nat) : TaskProgressEntry :=
  (findTP p taskId).getD {task := taskId, studentUploads := []}

/-- `findIndex` on `tp.task === taskId` followed by an in-place update of
that entry: rewrite the first matching entry, keep the rest. -/
def updateFirstTP (l : List TaskProgressEntry) (taskId : Nat)
    (f : TaskProgressEntry → TaskProgressEntry) : List TaskProgressEntry :=
  match l with
  | [] => []
  | tp :: rest =>
    if tp.task == taskId then f tp :: rest else tp :: updateFirstTP rest taskId f

/-! ## POST /progress/complete-task (progress.js 33-94) -/

/-- The save phase of complete-task: find or lazily create the progress
record, push the task onto `completedTasks` if absent, recompute
`completedTasksCount` and `totalTasks` from the live catalog, save. -/
def completeTaskSave (st : Store) (user : UserDoc) (courseId taskId : Nat) :
    Store × ProgressDoc :=
  let p0 := progressOrNew st user.id courseId
  let p1 := if p0.completedTasks.contains taskId then p0
            else {p0 with completedTasks := p0.completedTasks ++ [taskId]}
  let p2 := {p1 with completedTasksCount := p1.completedTasks.length,
                     totalTasks := (allCourseTaskIds st courseId).length}
  (saveProgress st p2, p2)

/-- The aggregation of progress.js 73-78: match the user's progress
documents, unwind `completedTasks`, count — the caller's completed-task
total across all courses. -/
def totalCompletedOf (st : Store) (userId : Nat) : Nat :=
  ((st.progresses.filter (fun q => q.user == userId)).map
    (fun q => q.completedTasks.length)).sum

/-- `Student.findOne({name: req.user.name})`. -/
def findStudentByName (st : Store) (n : String) : Option StudentDoc :=
  st.students.find? (fun s => s.name == n)

/-- `Badge.findOne({criteria: 'Complete 5 tasks'})`. -/
def findBadgeByCriteria (st : Store) : Option BadgeDoc :=
  st.badges.find? (fun b => b.criteria == "Complete 5 tasks")

/-- `student.save()`: replace the student document by id. -/
def saveStudent (st : Store) (s : StudentDoc) : Store :=
  {st with students := st.students.map (fun s0 => if s0.id == s.id then s else s0)}

/-- Badge evaluator of complete-task (progress.js 67-87), run on the store
after the progress save: award the `Complete 5 tasks` badge when the badge
exists, the caller's overall completed count is at least 5 and the student
profile does not already hold it; report the newly granted badge ids. -/
def awardBadges (st : Store) (user : UserDoc) : Store × List Nat :=
  match findStudentByName st user.name with
  | none => (st, [])
  | some student =>
    match findBadgeByCriteria st with
    | none => (st, [])
    | some badge =>
      if 5 ≤ totalCompletedOf st user.id ∧ ¬ student.badges.contains badge.id then
        (saveStudent st {student with badges := student.badges ++ [badge.id]}, [badge.id])
      else (st, [])

/-- Response of complete-task: the saved progress plus the newly granted
badge ids. -/
structure CompleteOut where
  store : Store
  progress : ProgressDoc
  newBadges : List Nat
deriving DecidableEq, Inhabited

/-- POST /progress/complete-task: save phase followed by badge evaluation. -/
def completeTask (st : Store) (user : UserDoc) (courseId taskId : Nat) : CompleteOut :=
  let sp := completeTaskSave st user courseId taskId
  let ab := awardBadges sp.1 user
  ⟨ab.1, sp.2, ab.2⟩

/-- Running the complete-task route `n` times with the same arguments,
threading the store. -/
def repeatComplete (u : UserDoc) (courseId taskId : Nat) : Nat → Store → Store
  | 0, st => st
  | n + 1, st => repeatComplete u courseId taskId n (completeTask st u courseId taskId).store

/-! ## GET /progress/:courseId (progress.js 98-122) -/

/-- The JSON body the route answers. -/
structure ProgressView where
  completedTasks : List Nat
  completedTasksCount : Nat
  totalTasks : Nat
deriving DecidableEq, Inhabited

/-- Reading a course's progress: with no record the route answers the empty
view and writes nothing; with a record it recomputes both derived counters
from the live catalog, saves, and answers the record. -/
def getProgress (st : Store) (userId courseId : Nat) : Store × ProgressView :=
  match findProgress st userId courseId with
  | none => (st, ⟨[], 0, 0⟩)
  | some p =>
    let p2 := {p with completedTasksCount := p.completedTasks.length,
                      totalTasks := (allCourseTaskIds st courseId).length}
    (saveProgress st p2, ⟨p2.completedTasks, p2.completedTasksCount, p2.totalTasks⟩)

/-! ## GET /courses/:id/student/:studentId/progress (users.js 737-784) -/

/-- The progress block of that route's JSON body. -/
structure DetailedProgressView where
  completedTasks : Nat
  totalTasks : Nat
  completionPercentage : ℤ
  averageRating : ℚ
deriving DecidableEq, Inhabited

/-- The coach's detailed read of one student's progress.  It answers the
STORED `completedTasksCount` and `totalTasks` of the record, with the two
schema methods applied on the stored numbers; it performs no recomputation
against the catalog and no save. -/
def getStudentProgressDetailed (st : Store) (caller : UserDoc)
    (courseId studentId : Nat) : Except (Nat × String) DetailedProgressView :=
  match findCourse st courseId with
  | none => .error (404, "Course not found")
  | some course =>
    if course.coach ≠ caller.id then .error (401, "Not authorized")
    else
      match findProgress st studentId courseId with
      | none => .error (404, "Student progress not found")
      | some progress =>
        .ok ⟨progress.completedTasksCount, progress.totalTasks,
             progress.getCompletionPercentage, progress.getAverageRating⟩

/-! ## POST /progress/submit-task (progress.js 127-161) -/

/-- Student upload of files for a task: at least one file required; the
progress record is created lazily.  The handler runs
`tp = progress.taskProgress.find(tp => tp.task === taskId)`; when an entry
exists, `tp` is the stored subdocument, so appending the uploads and
setting `submittedForReview`/`submittedAt` mutate the array element that
`save` persists.  When no entry exists the handler pushes the plain object
`{task: taskId, studentUploads: []}`: mongoose's DocumentArray `push`
casts it into a NEW subdocument, the local `tp` stays the detached plain
object, and the subsequent writes (uploads, `submittedForReview`,
`submittedAt`) land on that detached object and are lost — only the fresh
entry with schema defaults is persisted and returned. -/
def submitTask (st : Store) (userId courseId taskId : Nat)
    (files : List FileUpload) (now : Nat) : Except (Nat × String) (Store × ProgressDoc) :=
  if files.isEmpty then .error (400, "At least one file is required.")
  else
    let p0 := progressOrNew st userId courseId
    if (findTP p0 taskId).isSome then
      let uploads := files.map (fun f =>
        ({url := "uploads/" ++ f.filename, originalName := f.originalname, uploadedAt := now} : Upload))
      let p2 := {p0 with taskProgress := updateFirstTP p0.taskProgress taskId (fun tp =>
        {tp with studentUploads := tp.studentUploads ++ uploads,
                 submittedForReview := true, submittedAt := some now})}
      .ok (saveProgress st p2, p2)
    else
      let p2 := {p0 with taskProgress := p0.taskProgress ++ [{task := taskId, studentUploads := []}]}
      .ok (saveProgress st p2, p2)

/-! ## PATCH /progress/:courseId/mark-seen (progress.js 188-206) -/

/-- Mark every reviewed, unseen entry as seen; save only when one changed. -/
def markSeen (st : Store) (userId courseId : Nat) : Except (Nat × String) Store :=
  match findProgress st userId courseId with
  | none => .error (404, "Progress not found")
  | some progress =>
    let changed := progress.taskProgress.any (fun tp => tp.reviewed && !tp.seenByStudent)
    let tps := progress.taskProgress.map (fun tp =>
      if tp.reviewed && !tp.seenByStudent then {tp with seenByStudent := true} else tp)
    .ok (if changed then saveProgress st {progress with taskProgress := tps} else st)

/-! ## POST /courses/:id/rate-task (users.js 676-732) -/

/-- Coach rates a student's task.  The route validates the rating first
(`!rating || rating < 1 || rating > 5`), then resolves the course, checks
ownership, resolves the progress record and the task-progress entry, and
finally writes rating, feedback, rated-at, clears `submittedForReview`,
and recomputes `averageRating` with the schema method. -/
def rateTask (st : Store) (caller : UserDoc) (courseId studentId taskId : Nat)
    (rating : Option ℚ) (feedback : Option String) (now : Nat) :
    Except (Nat × String) (Store × ProgressDoc) :=
  match rating with
  | none => .error (400, "Rating must be between 1 and 5")
  | some r =>
    if r < 1 ∨ 5 < r then .error (400, "Rating must be between 1 and 5")
    else
      match findCourse st courseId with
      | none => .error (404, "Course not found")
      | some course =>
        if course.coach ≠ caller.id then
          .error (401, "Not authorized to rate tasks in this course")
        else
          match findProgress st studentId courseId with
          | none => .error (404, "Student progress not found")
          | some progress =>
            if (findTP progress taskId).isNone then .error (404, "Task progress not found")
            else
              let p1 := {progress with taskProgress :=
                (updateFirstTP progress.taskProgress taskId (fun tp =>
                  {tp with coachRating := some r, coachFeedback := feedback.getD "",
                           coachRatedAt := some now, submittedForReview := false}))}
              let p2 := {p1 with averageRating := p1.getAverageRating}
              .ok (saveProgress st p2, p2)

/-! ## DELETE /skills/tasks/:taskId and DELETE /skills/:skillId
(the skills router inside src/backend/routes/progress.js, 342-370 and 465-513) -/

/-- Delete a task: resolve task, skill and course, check coach ownership,
pull the task id from the skill's `tasks` array and delete the task
document.  When the skill no longer exists the orphaned task is simply
deleted.  No progress document is touched on either path. -/
def deleteTask (st : Store) (caller : UserDoc) (taskId : Nat) :
    Except (Nat × String) Store :=
  match st.tasks.find? (fun t => t.id == taskId) with
  | none => .error (404, "Task not found")
  | some task =>
    match st.skills.find? (fun sk => sk.id == task.skill) with
    | none => .ok {st with tasks := st.tasks.filter (fun t => t.id != taskId)}
    | some skill =>
      match findCourse st skill.course with
      | none => .error (401, "User not authorized")
      | some course =>
        if course.coach ≠ caller.id then .error (401, "User not authorized")
        else
          .ok {st with
            skills := st.skills.map (fun sk =>
              if sk.id == task.skill
              then {sk with tasks := sk.tasks.filter (fun t => t != taskId)}
              else sk),
            tasks := st.tasks.filter (fun t => t.id != taskId)}

/-- Delete a skill: check coach ownership, `Task.deleteMany({skill})`,
pull the skill from the course's `skills` array, delete the skill.  No
progress document is touched. -/
def deleteSkill (st : Store) (caller : UserDoc) (skillId : Nat) :
    Except (Nat × String) Store :=
  match st.skills.find? (fun sk => sk.id == skillId) with
  | none => .error (404, "Skill not found")
  | some skill =>
    match findCourse st skill.course with
    | none => .error (401, "User not authorized")
    | some course =>
      if course.coach ≠ caller.id then .error (401, "User not authorized")
      else
        .ok {st with
          tasks := st.tasks.filter (fun t => t.skill != skillId),
          courses := st.courses.map (fun c =>
            if c.id == skill.course
            then {c with skills := c.skills.filter (fun s => s != skillId)}
            else c),
          skills := st.skills.filter (fun sk => sk.id != skillId)}

/-! ## DELETE /courses/:id (users.js 400-438) -/

/-- Delete a course as its owning coach: pull the course from every user's
`enrolledCourses`, delete every task of every skill of the course, delete
the skills, delete the progress records of the course, delete the course. -/
def deleteCourse (st : Store) (caller : UserDoc) (courseId : Nat) :
    Except (Nat × String) Store :=
  match findCourse st courseId with
  | none => .error (404, "Course not found")
  | some course =>
    if course.coach ≠ caller.id then
      .error (401, "Not authorized to delete this course")
    else
      let courseSkillIds := (st.skills.filter (fun sk => sk.course == courseId)).map (fun sk => sk.id)
      .ok {st with
        users := st.users.map (fun u =>
          {u with enrolledCourses := u.enrolledCourses.filter (fun c => c != course.id)}),
        tasks := st.tasks.filter (fun t => !(courseSkillIds.contains t.skill)),
        skills := st.skills.filter (fun sk => sk.course != courseId),
        progresses := st.progresses.filter (fun q => q.course != courseId),
        courses := st.courses.filter (fun c => c.id != courseId)}

/-! ## Spec-side view of the recomputation (for claim C1) -/

/-- The raw task-reference lists of all skills of the course, flattened
(before resolving the references against the tasks collection). -/
def catalogTaskRefs (st : Store) (courseId : Nat) : List Nat :=
  (skillsOfCourse st courseId).flatMap (fun sk => sk.tasks)

/-- Modelled from the spec: the set of Tasks reachable from the course's
current Skills — task documents referenced by some skill of the course,
as a finite set of ids (the "flattened union"). -/
def specReachableTaskIds (st : Store) (courseId : Nat) : Finset Nat :=
  ((st.tasks.filter (fun t =>
    (skillsOfCourse st courseId).any (fun sk => sk.tasks.contains t.id))).map
    (fun t => t.id)).toFinset

/-! ## Group routes (groups.js 161-191) -/

/-- POST /groups/:groupId/leave: the creator is refused; anyone else is
filtered out of the member list. -/
def leaveGroup (g : GroupDoc) (callerId : Nat) : Except (Nat × String) GroupDoc :=
  if g.creator == callerId then .error (403, "Creator cannot leave the group")
  else .ok {g with members := g.members.filter (fun m => m != callerId)}

/-- POST /groups/:groupId/remove-member: refused unless the caller is the
creator or the coach; the target id is filtered out of the member list with
no check on who the target is. -/
def removeMember (g : GroupDoc) (callerId memberId : Nat) :
    Except (Nat × String) GroupDoc :=
  if g.creator ≠ callerId ∧ (g.coach.isNone ∨ g.coach ≠ some callerId) then
    .error (403, "Only the creator or coach can remove members")
  else .ok {g with members := g.members.filter (fun m => m != memberId)}

/-! ## Concrete instances used by witnesses and counterexamples -/

/-- A record with exactly two rated task-progress entries, rated 4 and 5
(the spec scenario behind claim C5). -/
def twoRatedProgress : ProgressDoc :=
  {user := 1, course := 1,
   taskProgress := [{task := 1, coachRating := some 4},
                    {task := 2, coachRating := some 5}]}

/-- A coach account owning course 1 in the stores below. -/
def coachUser : UserDoc := {id := 10, name := "coach"}

/-- Store with a stale progress record: course 1 has one live task, but
the stored `totalTasks` of student 2's record is still 0. -/
def staleStore : Store :=
  {courses := [{id := 1, coach := 10, skills := [1]}],
   skills := [{id := 1, course := 1, tasks := [1]}],
   tasks := [{id := 1, skill := 1}],
   progresses := [{user := 2, course := 1}]}

/-- Store in which student 2 has completed task 1 of course 1, and the
catalog still contains the task — the state just before the delete-task
call of the C2 failing input. -/
def deleteStore : Store :=
  {courses := [{id := 1, coach := 10, skills := [1]}],
   skills := [{id := 1, course := 1, tasks := [1]}],
   tasks := [{id := 1, skill := 1}],
   progresses := [{user := 2, course := 1, completedTasks := [1],
                   taskProgress := [{task := 1, completed := true}],
                   totalTasks := 1, completedTasksCount := 1}]}

/-- The same store after the task delete: catalog emptied of the task,
progress record untouched. -/
def deleteStoreAfterTask : Store :=
  {courses := [{id := 1, coach := 10, skills := [1]}],
   skills := [{id := 1, course := 1, tasks := []}],
   tasks := [],
   progresses := deleteStore.progresses}

/-- The same store after the skill delete: skill, task and the course's
skill reference gone, progress record untouched. -/
def deleteStoreAfterSkill : Store :=
  {courses := [{id := 1, coach := 10, skills := []}],
   skills := [],
   tasks := [],
   progresses := deleteStore.progresses}

/-- Store with one submitted, not yet rated task-progress entry for
student 2 in course 1 — input of the C3 witness. -/
def rateStore : Store :=
  {courses := [{id := 1, coach := 10}],
   progresses := [{user := 2, course := 1,
                   taskProgress := [{task := 1, submittedForReview := true}]}]}

/-- A student user about to complete their fifth task overall: four tasks
are already recorded in course 1, and the `Complete 5 tasks` badge exists
but is not yet held. -/
def badgeStore : Store :=
  {progresses := [{user := 1, course := 1, completedTasks := [11, 12, 13, 14]}],
   students := [{id := 1, name := "alice"}],
   badges := [{id := 5, criteria := "Complete 5 tasks"}]}

/-- The student account of `badgeStore`. -/
def aliceUser : UserDoc := {id := 1, name := "alice"}

/-- Store for the C9 witness: course 1 with one skill, one task, one
enrolled student with a progress record. -/
def courseStore : Store :=
  {courses := [{id := 1, coach := 10, students := [2], skills := [1]}],
   skills := [{id := 1, course := 1, tasks := [1]}],
   tasks := [{id := 1, skill := 1}],
   progresses := [{user := 2, course := 1, completedTasks := [1]}],
   users := [{id := 2, name := "bob", enrolledCourses := [1]}]}

/-- Store in which user 1 already has a (still default) task-progress
entry for task 1 of course 1 — the existing-entry path of submit-task. -/
def submitStore : Store :=
  {progresses := [{user := 1, course := 1, taskProgress := [{task := 1}]}]}

/-- Group with creator 1, a second member and no coach. -/
def sampleGroup : GroupDoc := {id := 1, creator := 1, members := [1, 2], coach := none}

/-- A store with every collection empty. -/
def emptyStore : Store := {}

/-! ## Helper lemmas -/

/-- The rated values of a task-progress list: `filterMap` over
`coachRating` agrees with the source's filter-then-read pattern. -/
theorem rated_filterMap_eq (l : List TaskProgressEntry) :
    l.filterMap (fun tp => tp.coachRating)
      = (l.filter (fun tp => tp.coachRating.isSome)).map (fun tp => tp.coachRating.getD 0) := by
  induction l with
  | nil => rfl
  | cons tp rest ih =>
    cases h : tp.coachRating with
    | none => simp [List.filterMap_cons, List.filter_cons, h, ih]
    | some v => simp [List.filterMap_cons, List.filter_cons, h, ih]

/-- The schema method `getAverageRating` computes the spec's average:
0 with no rated entries, otherwise the mean of the rated values rounded
to one decimal place. -/
theorem getAverageRating_eq_spec (p : ProgressDoc) :
    p.getAverageRating = specAverageRating p := by
  unfold ProgressDoc.getAverageRating specAverageRating roundTo1 ratedValues
  rw [rated_filterMap_eq]
  by_cases h : (p.taskProgress.filter (fun tp => tp.coachRating.isSome)) = []
  · simp [h]
  · have hlen : (p.taskProgress.filter (fun tp => tp.coachRating.isSome)).length ≠ 0 := by
      simpa [List.length_eq_zero] using h
    simp [h, hlen, List.map_eq_nil_iff]

/-- `find?` over a list extended on the right with a matching element,
when nothing matched before. -/
theorem find?_append_right_self {α : Type} (l : List α) (k : α → Bool) (p : α)
    (hl : l.find? k = none) (hp : k p = true) : (l ++ [p]).find? k = some p := by
  induction l with
  | nil => simp [List.find?_cons, hp]
  | cons a rest ih =>
    have ha : ¬ k a = true := by
      intro hcon
      simp [List.find?_cons_of_pos, hcon] at hl
    rw [List.cons_append, List.find?_cons_of_neg _ ha]
    rw [List.find?_cons_of_neg _ ha] at hl
    exact ih hl

/-- `find?` over a list in which every matching element was replaced by
`p`, when something matched: the first match is now `p`. -/
theorem find?_map_replace {α : Type} (l : List α) (k : α → Bool) (p : α)
    (hp : k p = true) (hl : (l.find? k).isSome) :
    (l.map (fun q => if k q then p else q)).find? k = some p := by
  induction l with
  | nil => simp at hl
  | cons a rest ih =>
    by_cases ha : k a
    · simp only [List.map_cons, if_pos ha]
      exact List.find?_cons_of_pos _ hp
    · simp only [List.map_cons, if_neg ha]
      rw [List.find?_cons_of_neg _ (by simpa using ha)]
      rw [List.find?_cons_of_neg _ (by simpa using ha)] at hl
      exact ih hl

/-- A found progress record carries the queried compound key. -/
theorem findProgress_key {st : Store} {uid cid : Nat} {p : ProgressDoc}
    (h : findProgress st uid cid = some p) : p.user = uid ∧ p.course = cid := by
  have hk := List.find?_some h
  unfold progKey at hk
  simp only [Bool.and_eq_true, beq_iff_eq] at hk
  exact hk

/-- Saving a progress record makes it findable under its own key. -/
theorem findProgress_saveProgress_self (st : Store) (p : ProgressDoc) :
    findProgress (saveProgress st p) p.user p.course = some p := by
  have hp : progKey p.user p.course p = true := by simp [progKey]
  unfold saveProgress
  by_cases h : (findProgress st p.user p.course).isSome
  · rw [if_pos h]
    unfold findProgress at h ⊢
    exact find?_map_replace _ _ _ hp h
  · rw [if_neg h]
    unfold findProgress at h ⊢
    exact find?_append_right_self _ _ _ (Option.not_isSome_iff_eq_none.mp h) hp

/-- Saving a progress record leaves the student collection alone. -/
theorem saveProgress_students (st : Store) (p : ProgressDoc) :
    (saveProgress st p).students = st.students := by
  unfold saveProgress
  split <;> rfl

/-- The badge evaluator never touches the progress collection. -/
theorem awardBadges_progresses (st : Store) (u : UserDoc) :
    (awardBadges st u).1.progresses = st.progresses := by
  unfold awardBadges
  cases findStudentByName st u.name with
  | none => rfl
  | some student =>
    cases findBadgeByCriteria st with
    | none => rfl
    | some badge =>
      dsimp only
      split <;> rfl

/-- The record produced by `progressOrNew` carries the queried key. -/
theorem progressOrNew_key (st : Store) (uid cid : Nat) :
    (progressOrNew st uid cid).user = uid ∧ (progressOrNew st uid cid).course = cid := by
  unfold progressOrNew
  cases h : findProgress st uid cid with
  | none => exact ⟨rfl, rfl⟩
  | some p => simpa using findProgress_key h

/-- A saved record is findable under any key it carries. -/
theorem findProgress_save_isSome (st : Store) (p : ProgressDoc) (uid cid : Nat)
    (hu : p.user = uid) (hc : p.course = cid) :
    (findProgress (saveProgress st p) uid cid).isSome := by
  subst hu
  subst hc
  rw [findProgress_saveProgress_self]
  rfl

/-- The key of the record written by the save phase of complete-task. -/
theorem completeTaskSave_key (st : Store) (u : UserDoc) (courseId taskId : Nat) :
    (completeTaskSave st u courseId taskId).2.user = u.id
      ∧ (completeTaskSave st u courseId taskId).2.course = courseId := by
  unfold completeTaskSave progressOrNew
  cases h : findProgress st u.id courseId with
  | none => constructor <;> (simp only [Option.getD]; split <;> rfl)
  | some p =>
    have hk := findProgress_key h
    constructor <;> (simp only [Option.getD]; split <;> simp [hk.1, hk.2])

/-- `find?` after updating the first matching entry: the found entry is
the update of the previously found one, provided the update keeps the key
field. -/
theorem findTP_updateFirstTP (l : List TaskProgressEntry) (taskId : Nat)
    (f : TaskProgressEntry → TaskProgressEntry)
    (hf : ∀ tp, (f tp).task = tp.task) :
    (updateFirstTP l taskId f).find? (fun tp => tp.task == taskId)
      = (l.find? (fun tp => tp.task == taskId)).map f := by
  induction l with
  | nil => rfl
  | cons tp rest ih =>
    by_cases h : (tp.task == taskId) = true
    · unfold updateFirstTP
      rw [if_pos h,
        List.find?_cons_of_pos (p := fun tp => tp.task == taskId) (a := f tp) rest
          (by simpa [hf] using h),
        List.find?_cons_of_pos (p := fun tp => tp.task == taskId) (a := tp) rest h]
      rfl
    · unfold updateFirstTP
      rw [if_neg h,
        List.find?_cons_of_neg (p := fun tp => tp.task == taskId) (a := tp)
          (updateFirstTP rest taskId f) h,
        List.find?_cons_of_neg (p := fun tp => tp.task == taskId) (a := tp) rest h]
      exact ih

/-! ## Claim theorems -/

/-- C4: for every Progress record, `getCompletionPercentage` returns 0 when
`totalTasks` is 0 (the division is never reached in that case) and
otherwise `round(100 * completedTasksCount / totalTasks)`. -/
theorem getCompletionPercentage_meets_spec (p : ProgressDoc) :
    p.getCompletionPercentage = specCompletionPercentage p := by
  unfold ProgressDoc.getCompletionPercentage specCompletionPercentage
  by_cases h : p.totalTasks = 0
  · simp [h]
  · simp only [h, if_false]
    congr 1
    ring

/-- C5: for every Progress record, `getAverageRating` returns 0 when no
task-progress entry is rated and otherwise the arithmetic mean of the
rated `coachRating` values rounded to one decimal place; two entries
rated 4 and 5 yield 4.5. -/
theorem getAverageRating_meets_spec :
    (∀ p : ProgressDoc, p.getAverageRating = specAverageRating p)
      ∧ twoRatedProgress.getAverageRating = 9/2 := by
  refine ⟨getAverageRating_eq_spec, ?_⟩
  simp [twoRatedProgress, ProgressDoc.getAverageRating, jsRound]
  norm_num

/-- C8 counterexample: the creator of `sampleGroup` — an authorized caller
of remove-member — names themself as target; the call succeeds and the
creator is no longer in the member list. -/
theorem removeMember_can_remove_creator :
    removeMember sampleGroup 1 1
        = .ok {id := 1, creator := 1, members := [2], coach := none}
      ∧ sampleGroup.creator ∉ ([2] : List Nat) :=
  ⟨rfl, by decide⟩

/-- C8 amended: the leave route always refuses the creator and removes any
other caller from the member list; remove-member refuses every caller other
than the creator or the coach, but does not protect the creator as target —
an authorized call filters exactly the requested id out of the member list,
whoever it names. -/
theorem group_creator_leave_remove (g : GroupDoc) (callerId memberId : Nat) :
    (leaveGroup g g.creator = .error (403, "Creator cannot leave the group"))
    ∧ (callerId ≠ g.creator →
        leaveGroup g callerId
          = .ok {g with members := g.members.filter (fun m => m != callerId)})
    ∧ (callerId ≠ g.creator → g.coach ≠ some callerId →
        removeMember g callerId memberId
          = .error (403, "Only the creator or coach can remove members"))
    ∧ (removeMember g g.creator memberId
        = .ok {g with members := g.members.filter (fun m => m != memberId)}) := by
  refine ⟨?_, ?_, ?_, ?_⟩
  · unfold leaveGroup
    rw [if_pos (by simp)]
  · intro h
    unfold leaveGroup
    rw [if_neg (by simpa using Ne.symm h)]
  · intro h1 h2
    unfold removeMember
    rw [if_pos ⟨Ne.symm h1, Or.inr h2⟩]
  · unfold removeMember
    rw [if_neg (fun hc => hc.1 rfl)]

/-- C8 witness: on `sampleGroup`, member 2 leaves successfully and outsider
3 is refused by remove-member. -/
theorem group_creator_leave_remove_witness :
    leaveGroup sampleGroup 2
        = .ok {sampleGroup with members := sampleGroup.members.filter (fun m => m != 2)}
      ∧ removeMember sampleGroup 3 2
        = .error (403, "Only the creator or coach can remove members") :=
  ⟨(group_creator_leave_remove sampleGroup 2 0).2.1 (by decide),
   (group_creator_leave_remove sampleGroup 3 2).2.2.1 (by decide) (by decide)⟩

/-- C2: evaluating the two delete routes at the failing input.  Both
succeed and delete the catalog documents, yet the progress record still
lists the deleted task 1 in `completedTasks` and `taskProgress` — the
cascade over progress records required by the spec is absent. -/
theorem delete_leaves_progress_references :
    deleteTask deleteStore coachUser 1 = .ok deleteStoreAfterTask
    ∧ deleteSkill deleteStore coachUser 1 = .ok deleteStoreAfterSkill
    ∧ (∀ q ∈ deleteStoreAfterTask.progresses, 1 ∈ q.completedTasks ∧ (findTP q 1).isSome)
    ∧ (∀ q ∈ deleteStoreAfterSkill.progresses, 1 ∈ q.completedTasks ∧ (findTP q 1).isSome) :=
  ⟨rfl, rfl, by decide, by decide⟩

/-- C10: with no progress record for (user, course), the read route
answers the empty view and returns the store unchanged, and mark-seen
fails with 404; the record is created lazily by complete-task and by a
successful submit-task. -/
theorem progress_read_pure (st : Store) (u : UserDoc) (courseId taskId : Nat)
    (files : List FileUpload) (now : Nat)
    (habs : findProgress st u.id courseId = none) :
    getProgress st u.id courseId = (st, ⟨[], 0, 0⟩)
    ∧ markSeen st u.id courseId = .error (404, "Progress not found")
    ∧ (findProgress (completeTask st u courseId taskId).store u.id courseId).isSome
    ∧ (files ≠ [] → ∃ stp, submitTask st u.id courseId taskId files now = .ok stp
        ∧ (findProgress stp.1 u.id courseId).isSome) := by
  refine ⟨?_, ?_, ?_, ?_⟩
  · unfold getProgress
    rw [habs]
  · unfold markSeen
    rw [habs]
  · have hkey := completeTaskSave_key st u courseId taskId
    have hstore : (completeTask st u courseId taskId).store.progresses
        = (saveProgress st (completeTaskSave st u courseId taskId).2).progresses := by
      unfold completeTask
      rw [awardBadges_progresses]
      rfl
    have hfind := findProgress_saveProgress_self st (completeTaskSave st u courseId taskId).2
    rw [hkey.1, hkey.2] at hfind
    unfold findProgress at hfind ⊢
    rw [hstore, hfind]
    rfl
  · intro hfiles
    unfold submitTask
    rw [if_neg (by simpa [List.isEmpty_iff] using hfiles)]
    dsimp only
    split
    · refine ⟨_, rfl, ?_⟩
      apply findProgress_save_isSome st _ u.id courseId
      · exact (progressOrNew_key st u.id courseId).1
      · exact (progressOrNew_key st u.id courseId).2
    · refine ⟨_, rfl, ?_⟩
      apply findProgress_save_isSome st _ u.id courseId
      · exact (progressOrNew_key st u.id courseId).1
      · exact (progressOrNew_key st u.id courseId).2

/-- C10 witness: on the empty store, the read answers the empty view
without writing, and one complete-task call creates the record. -/
theorem progress_read_pure_witness :
    getProgress emptyStore 1 1 = (emptyStore, ⟨[], 0, 0⟩)
      ∧ (findProgress (completeTask emptyStore aliceUser 1 1).store 1 1).isSome :=
  ⟨(progress_read_pure emptyStore aliceUser 1 1 [] 0 rfl).1,
   (progress_read_pure emptyStore aliceUser 1 1 [] 0 rfl).2.2.1⟩

/-- C6: evaluating submit-task at the failing input and, for contrast, at
the intended input.  An empty upload list is refused with the validation
error.  With no prior task-progress entry (the lazy-create path of the
failing input) the call succeeds but the persisted and returned entry
carries NO uploads, `submittedForReview` stays false and `submittedAt`
stays unset — the source's post-push writes land on the plain object that
DocumentArray `push` left detached.  Only on an already-existing entry do
the upload, `submittedForReview` and `submittedAt` land as the claim
states, with `completed` and `completedTasks` untouched. -/
theorem submitTask_lazy_create_loses_writes :
    (submitTask emptyStore 1 1 1 [] 0 = .error (400, "At least one file is required."))
    ∧ (∃ st2 p2, submitTask emptyStore 1 1 1 [{filename := "a.mp4", originalname := "clip.mp4"}] 7
          = .ok (st2, p2)
        ∧ (∃ e, findTP p2 1 = some e
            ∧ e.studentUploads = [] ∧ e.submittedForReview = false ∧ e.submittedAt = none)
        ∧ findProgress st2 1 1 = some p2)
    ∧ (∃ st2 p2, submitTask submitStore 1 1 1 [{filename := "a.mp4", originalname := "clip.mp4"}] 7
          = .ok (st2, p2)
        ∧ (∃ e, findTP p2 1 = some e
            ∧ e.studentUploads = [{url := "uploads/a.mp4", originalName := "clip.mp4", uploadedAt := 7}]
            ∧ e.submittedForReview = true ∧ e.submittedAt = some 7 ∧ e.completed = false)
        ∧ p2.completedTasks = []) :=
  ⟨rfl,
   ⟨_, _, rfl, ⟨_, rfl, rfl, rfl, rfl⟩, rfl⟩,
   ⟨_, _, rfl, ⟨_, rfl, rfl, rfl, rfl, rfl⟩, rfl⟩⟩

/-- After overwriting `averageRating` with the schema method's value, the
stored field equals the spec average of the record (the method reads only
`taskProgress`). -/
theorem avg_after_set (p1 : ProgressDoc) :
    ({p1 with averageRating := p1.getAverageRating} : ProgressDoc).averageRating
      = specAverageRating {p1 with averageRating := p1.getAverageRating} := by
  show p1.getAverageRating = specAverageRating {p1 with averageRating := p1.getAverageRating}
  exact getAverageRating_eq_spec p1

/-- C3: rate-task validates the rating, then authorizes the owning coach,
then resolves the progress record and the task-progress entry, each failure
with its taxonomy kind; on success it writes rating, feedback and rated-at
on the entry, clears `submittedForReview`, and stores the recomputed
average rating. -/
theorem rateTask_spec (st : Store) (caller : UserDoc) (courseId studentId taskId : Nat)
    (r : ℚ) (feedback : Option String) (now : Nat)
    (course : CourseDoc) (progress : ProgressDoc) (e0 : TaskProgressEntry) :
    (rateTask st caller courseId studentId taskId none feedback now
        = .error (400, "Rating must be between 1 and 5"))
    ∧ ((r < 1 ∨ 5 < r) → rateTask st caller courseId studentId taskId (some r) feedback now
        = .error (400, "Rating must be between 1 and 5"))
    ∧ (1 ≤ r → r ≤ 5 → findCourse st courseId = some course → course.coach ≠ caller.id →
        rateTask st caller courseId studentId taskId (some r) feedback now
          = .error (401, "Not authorized to rate tasks in this course"))
    ∧ (1 ≤ r → r ≤ 5 → findCourse st courseId = some course → course.coach = caller.id →
        findProgress st studentId courseId = none →
        rateTask st caller courseId studentId taskId (some r) feedback now
          = .error (404, "Student progress not found"))
    ∧ (1 ≤ r → r ≤ 5 → findCourse st courseId = some course → course.coach = caller.id →
        findProgress st studentId courseId = some progress → findTP progress taskId = none →
        rateTask st caller courseId studentId taskId (some r) feedback now
          = .error (404, "Task progress not found"))
    ∧ (1 ≤ r → r ≤ 5 → findCourse st courseId = some course → course.coach = caller.id →
        findProgress st studentId courseId = some progress → findTP progress taskId = some e0 →
        ∃ stp, rateTask st caller courseId studentId taskId (some r) feedback now = .ok stp
          ∧ (∃ e, findTP stp.2 taskId = some e
              ∧ e.coachRating = some r ∧ e.coachFeedback = feedback.getD ""
              ∧ e.coachRatedAt = some now ∧ e.submittedForReview = false)
          ∧ stp.2.averageRating = specAverageRating stp.2) := by
  have hnotbad : 1 ≤ r → r ≤ 5 → ¬ (r < 1 ∨ 5 < r) := fun h1 h2 hc =>
    hc.elim (fun hl => absurd h1 (not_le.mpr hl)) (fun hg => absurd h2 (not_le.mpr hg))
  refine ⟨rfl, ?_, ?_, ?_, ?_, ?_⟩
  · intro hbad
    unfold rateTask
    dsimp only
    rw [if_pos hbad]
  · intro h1 h2 hcourse hcoach
    unfold rateTask
    dsimp only
    rw [if_neg (hnotbad h1 h2), hcourse]
    dsimp only
    rw [if_pos hcoach]
  · intro h1 h2 hcourse hcoach hprog
    unfold rateTask
    dsimp only
    rw [if_neg (hnotbad h1 h2), hcourse]
    dsimp only
    rw [if_neg (fun hne => hne hcoach), hprog]
  · intro h1 h2 hcourse hcoach hprog htp
    unfold rateTask
    dsimp only
    rw [if_neg (hnotbad h1 h2), hcourse]
    dsimp only
    rw [if_neg (fun hne => hne hcoach), hprog]
    dsimp only
    rw [if_pos (by simp [htp])]
  · intro h1 h2 hcourse hcoach hprog htp
    unfold rateTask
    dsimp only
    rw [if_neg (hnotbad h1 h2), hcourse]
    dsimp only
    rw [if_neg (fun hne => hne hcoach), hprog]
    dsimp only
    rw [if_neg (by simp [htp])]
    have hfind2 : (updateFirstTP progress.taskProgress taskId (fun tp =>
        {tp with coachRating := some r, coachFeedback := feedback.getD "", coachRatedAt := some now, submittedForReview := false})).find?
        (fun tp => tp.task == taskId)
        = some ({e0 with coachRating := some r, coachFeedback := feedback.getD "", coachRatedAt := some now, submittedForReview := false}) := by
      rw [findTP_updateFirstTP progress.taskProgress taskId (fun tp =>
        {tp with coachRating := some r, coachFeedback := feedback.getD "", coachRatedAt := some now, submittedForReview := false}) (fun _ => rfl)]
      unfold findTP at htp
      rw [htp]
      rfl
    exact ⟨_, rfl, ⟨_, hfind2, rfl, rfl, rfl, rfl⟩, avg_after_set _⟩

/-- C3 witness: on `rateStore`, rating 6 is refused as invalid and rating 4
by the owning coach succeeds. -/
theorem rateTask_spec_witness :
    (rateTask rateStore coachUser 1 2 1 (some 6) none 0
        = .error (400, "Rating must be between 1 and 5"))
      ∧ (rateTask rateStore coachUser 1 2 1 (some 4) none 7).isOk = true := by
  constructor
  · exact (rateTask_spec rateStore coachUser 1 2 1 6 none 0
      default default default).2.1 (by norm_num)
  · obtain ⟨stp, hok, -, -⟩ :=
      (rateTask_spec rateStore coachUser 1 2 1 4 none 7
        {id := 1, coach := 10}
        {user := 2, course := 1, taskProgress := [{task := 1, submittedForReview := true}]}
        {task := 1, submittedForReview := true}).2.2.2.2.2
        (by norm_num) (by norm_num) rfl rfl rfl rfl
    rw [hok]
    rfl

/-- C9: deleting a course as its owning coach succeeds and leaves no skill
of the course, no task of any of its skills, no progress record of the
course, no enrollment of the course, and no course document with its id. -/
theorem deleteCourse_cascades (st : Store) (caller : UserDoc) (courseId : Nat)
    (course : CourseDoc) (hfind : findCourse st courseId = some course)
    (hcoach : course.coach = caller.id) :
    ∃ st2, deleteCourse st caller courseId = .ok st2
      ∧ (∀ c ∈ st2.courses, c.id ≠ courseId)
      ∧ (∀ sk ∈ st2.skills, sk.course ≠ courseId)
      ∧ (∀ t ∈ st2.tasks, ∀ sk ∈ st.skills, sk.course = courseId → t.skill ≠ sk.id)
      ∧ (∀ q ∈ st2.progresses, q.course ≠ courseId)
      ∧ (∀ u2 ∈ st2.users, courseId ∉ u2.enrolledCourses) := by
  unfold findCourse at hfind
  have hcid : course.id = courseId := by simpa using List.find?_some hfind
  unfold deleteCourse findCourse
  rw [hfind]
  dsimp only
  rw [if_neg (fun hne => hne hcoach)]
  refine ⟨_, rfl, ?_, ?_, ?_, ?_, ?_⟩
  · intro c hc
    simpa using (List.mem_filter.mp hc).2
  · intro sk hsk
    simpa using (List.mem_filter.mp hsk).2
  · intro t ht sk hsk hskc heq
    have h2 := (List.mem_filter.mp ht).2
    rw [heq] at h2
    have hmem : ((st.skills.filter (fun sk => sk.course == courseId)).map
        (fun sk => sk.id)).contains sk.id = true := by
      simp only [List.contains_eq_any_beq, List.any_eq_true]
      exact ⟨sk.id, List.mem_map.mpr ⟨sk, List.mem_filter.mpr ⟨hsk, by simp [hskc]⟩, rfl⟩, by simp⟩
    rw [hmem] at h2
    simp at h2
  · intro q hq
    simpa using (List.mem_filter.mp hq).2
  · intro u2 hu2
    obtain ⟨u0, hu0, rfl⟩ := List.mem_map.mp hu2
    intro hmem
    have h2 := (List.mem_filter.mp hmem).2
    simp [hcid] at h2

/-- C9 witness: the owning coach deletes course 1 of `courseStore`. -/
theorem deleteCourse_cascades_witness :
    (deleteCourse courseStore coachUser 1).isOk = true := by
  obtain ⟨st2, hok, -⟩ := deleteCourse_cascades courseStore coachUser 1
    {id := 1, coach := 10, students := [2], skills := [1]} rfl rfl
  rw [hok]
  rfl

/-- The badge evaluator preserves duplicate-freeness of every student's
badge list: it only appends a badge after checking it is not yet held. -/
theorem awardBadges_nodup (st : Store) (u : UserDoc)
    (h : ∀ s ∈ st.students, s.badges.Nodup) :
    ∀ s ∈ (awardBadges st u).1.students, s.badges.Nodup := by
  unfold awardBadges
  cases hs : findStudentByName st u.name with
  | none => exact h
  | some student =>
    cases hb : findBadgeByCriteria st with
    | none => exact h
    | some badge =>
      dsimp only
      split
      · rename_i hcond
        intro s hsmem
        unfold saveStudent at hsmem
        obtain ⟨s0, hs0, rfl⟩ := List.mem_map.mp hsmem
        by_cases hid : (s0.id == student.id) = true
        · rw [if_pos hid]
          have hnodup := h student (List.mem_of_find?_eq_some hs)
          have hnotin : badge.id ∉ student.badges := by
            simpa using hcond.2
          simp [List.nodup_append, hnodup, hnotin]
        · rw [if_neg hid]
          exact h s0 hs0
      · exact h

/-- One run of complete-task preserves duplicate-freeness of every
student's badge list. -/
theorem completeTask_nodup (st : Store) (u : UserDoc) (courseId taskId : Nat)
    (h : ∀ s ∈ st.students, s.badges.Nodup) :
    ∀ s ∈ (completeTask st u courseId taskId).store.students, s.badges.Nodup := by
  unfold completeTask
  dsimp only
  apply awardBadges_nodup
  have hstud : (completeTaskSave st u courseId taskId).1.students = st.students :=
    saveProgress_students st _
  intro s hsmem
  rw [hstud] at hsmem
  exact h s hsmem

/-- Any number of complete-task runs preserves duplicate-freeness of every
student's badge list. -/
theorem repeatComplete_nodup (u : UserDoc) (courseId taskId : Nat) :
    ∀ (n : Nat) (st : Store), (∀ s ∈ st.students, s.badges.Nodup) →
      ∀ s ∈ (repeatComplete u courseId taskId n st).students, s.badges.Nodup := by
  intro n
  induction n with
  | zero => intro st h; exact h
  | succ n ih =>
    intro st h
    exact ih _ (completeTask_nodup st u courseId taskId h)

/-- C7: a badge reported by complete-task is granted only when the badge
exists, the caller's overall completed count (on the saved store) meets
the threshold and the student does not already hold it, and the granted
badge then appears in the holder's set; iterating the route any number of
times never produces a duplicate badge in any student's set. -/
theorem badge_award_idempotent (st : Store) (u : UserDoc) (courseId taskId : Nat)
    (h : ∀ s ∈ st.students, s.badges.Nodup) :
    (∀ bid ∈ (completeTask st u courseId taskId).newBadges,
        (5 ≤ totalCompletedOf (completeTaskSave st u courseId taskId).1 u.id
          ∧ (∃ s, findStudentByName (completeTaskSave st u courseId taskId).1 u.name = some s
              ∧ bid ∉ s.badges)
          ∧ (∃ b, findBadgeByCriteria (completeTaskSave st u courseId taskId).1 = some b
              ∧ b.id = bid)
          ∧ (∃ s2 ∈ (completeTask st u courseId taskId).store.students,
              s2.name = u.name ∧ bid ∈ s2.badges)))
    ∧ (∀ s2 ∈ (completeTask st u courseId taskId).store.students,
        ∃ s1 ∈ st.students, s2.badges = s1.badges
          ∨ s2.badges = s1.badges ++ (completeTask st u courseId taskId).newBadges)
    ∧ (∀ n, ∀ s ∈ (repeatComplete u courseId taskId n st).students, s.badges.Nodup) := by
  refine ⟨?_, ?_, ?_⟩
  · intro bid hbid
    have hnb : (completeTask st u courseId taskId).newBadges
        = (awardBadges (completeTaskSave st u courseId taskId).1 u).2 := rfl
    have hst : (completeTask st u courseId taskId).store
        = (awardBadges (completeTaskSave st u courseId taskId).1 u).1 := rfl
    rw [hnb] at hbid
    rw [hst]
    set st1 := (completeTaskSave st u courseId taskId).1 with hst1
    unfold awardBadges at hbid ⊢
    cases hs : findStudentByName st1 u.name with
    | none =>
      rw [hs] at hbid
      simp at hbid
    | some student =>
      rw [hs] at hbid
      dsimp only at hbid
      cases hb : findBadgeByCriteria st1 with
      | none =>
        rw [hb] at hbid
        simp at hbid
      | some badge =>
        rw [hb] at hbid
        dsimp only at hbid
        by_cases hcond : (5 ≤ totalCompletedOf st1 u.id
            ∧ ¬ student.badges.contains badge.id = true)
        · rw [if_pos hcond] at hbid
          dsimp only
          rw [if_pos hcond]
          have hbid' : bid = badge.id := by simpa using hbid
          subst hbid'
          refine ⟨hcond.1, ⟨student, rfl, by simpa using hcond.2⟩, ⟨badge, rfl, rfl⟩, ?_⟩
          refine ⟨{student with badges := student.badges ++ [badge.id]}, ?_, ?_, ?_⟩
          · unfold saveStudent
            dsimp only
            exact List.mem_map.mpr ⟨student, List.mem_of_find?_eq_some hs, by simp⟩
          · have hname := List.find?_some hs
            simpa using hname
          · simp
        · rw [if_neg hcond] at hbid
          simp at hbid
  · intro s2 hs2
    have hst : (completeTask st u courseId taskId).store
        = (awardBadges (completeTaskSave st u courseId taskId).1 u).1 := rfl
    have hnb : (completeTask st u courseId taskId).newBadges
        = (awardBadges (completeTaskSave st u courseId taskId).1 u).2 := rfl
    have hstud : (completeTaskSave st u courseId taskId).1.students = st.students :=
      saveProgress_students st _
    rw [hst] at hs2
    rw [hnb]
    set st1 := (completeTaskSave st u courseId taskId).1 with hst1
    unfold awardBadges at hs2 ⊢
    cases hs : findStudentByName st1 u.name with
    | none =>
      rw [hs] at hs2
      dsimp only at hs2
      rw [hstud] at hs2
      exact ⟨s2, hs2, Or.inl rfl⟩
    | some student =>
      rw [hs] at hs2
      dsimp only at hs2
      cases hb : findBadgeByCriteria st1 with
      | none =>
        rw [hb] at hs2
        dsimp only at hs2
        rw [hstud] at hs2
        exact ⟨s2, hs2, Or.inl rfl⟩
      | some badge =>
        rw [hb] at hs2
        dsimp only at hs2
        by_cases hcond : (5 ≤ totalCompletedOf st1 u.id
            ∧ ¬ student.badges.contains badge.id = true)
        · rw [if_pos hcond] at hs2
          dsimp only
          rw [if_pos hcond]
          unfold saveStudent at hs2
          dsimp only at hs2
          obtain ⟨s0, hs0, heq⟩ := List.mem_map.mp hs2
          rw [hstud] at hs0
          by_cases hid : (s0.id == student.id) = true
          · rw [if_pos hid] at heq
            refine ⟨student, ?_, Or.inr ?_⟩
            · have hmem := List.mem_of_find?_eq_some hs
              rwa [hstud] at hmem
            · rw [← heq]
          · rw [if_neg hid] at heq
            exact ⟨s0, hs0, Or.inl (by rw [← heq])⟩
        · rw [if_neg hcond] at hs2
          dsimp only at hs2
          rw [hstud] at hs2
          exact ⟨s2, hs2, Or.inl rfl⟩
  · exact fun n => repeatComplete_nodup u courseId taskId n st h

/-- C7 witness: completing a fifth task on `badgeStore` grants badge 5
once, and the badge lands in the student's set. -/
theorem badge_award_idempotent_witness :
    (completeTask badgeStore aliceUser 1 15).newBadges = [5]
      ∧ ∃ s2 ∈ (completeTask badgeStore aliceUser 1 15).store.students,
          s2.name = "alice" ∧ 5 ∈ s2.badges := by
  refine ⟨rfl, ?_⟩
  have h5 : (5 : Nat) ∈ (completeTask badgeStore aliceUser 1 15).newBadges := by decide
  obtain ⟨-, -, -, hmem⟩ :=
    (badge_award_idempotent badgeStore aliceUser 1 15 (by decide)).1 5 h5
  exact hmem

/-- Populating a reference list and reading back the ids keeps exactly the
references that resolve. -/
theorem populateTasks_map_id (st : Store) (refs : List Nat) :
    (populateTasks st refs).map (fun t => t.id)
      = refs.filter (fun tid => (st.tasks.find? (fun t => t.id == tid)).isSome) := by
  induction refs with
  | nil => rfl
  | cons tid rest ih =>
    unfold populateTasks at ih ⊢
    cases hf : st.tasks.find? (fun t => t.id == tid) with
    | none => simp [List.filterMap_cons, List.filter_cons, hf, ih]
    | some td =>
      have hid : td.id = tid := by simpa using List.find?_some hf
      simp [List.filterMap_cons, List.filter_cons, hf, ih, hid]

/-- Filtering inside a flat map, with a predicate independent of the outer
element, is filtering the flattened list. -/
theorem flatMap_filter {α β : Type} (l : List α) (g : α → List β) (p : β → Bool) :
    l.flatMap (fun a => (g a).filter p) = (l.flatMap g).filter p := by
  induction l with
  | nil => rfl
  | cons a rest ih => simp [List.flatMap_cons, List.filter_append, ih]

/-- The recomputed task-id list is the raw reference list of the course's
skills restricted to references that resolve. -/
theorem allCourseTaskIds_eq (st : Store) (courseId : Nat) :
    allCourseTaskIds st courseId
      = (catalogTaskRefs st courseId).filter
          (fun tid => (st.tasks.find? (fun t => t.id == tid)).isSome) := by
  unfold allCourseTaskIds catalogTaskRefs
  simp only [populateTasks_map_id]
  exact flatMap_filter _ _ _

/-- With duplicate-free raw references the recomputed id list is
duplicate-free. -/
theorem allCourseTaskIds_nodup (st : Store) (courseId : Nat)
    (hcat : (catalogTaskRefs st courseId).Nodup) :
    (allCourseTaskIds st courseId).Nodup := by
  rw [allCourseTaskIds_eq]
  exact hcat.filter _

/-- The recomputed id list enumerates the spec's reachable-task set. -/
theorem allCourseTaskIds_toFinset (st : Store) (courseId : Nat) :
    (allCourseTaskIds st courseId).toFinset = specReachableTaskIds st courseId := by
  ext tid
  rw [allCourseTaskIds_eq]
  unfold specReachableTaskIds catalogTaskRefs skillsOfCourse
  simp only [List.mem_toFinset, List.mem_filter, List.mem_flatMap, List.mem_map,
    List.find?_isSome, List.any_eq_true]
  constructor
  · rintro ⟨⟨sk, hsk, htid⟩, t, ht, hpt⟩
    have hid : t.id = tid := by simpa using hpt
    refine ⟨t, ⟨ht, ⟨sk, hsk, ?_⟩⟩, hid⟩
    simp [hid]
    exact htid
  · rintro ⟨t, ⟨ht, sk, hsk, hcont⟩, hid⟩
    have hmem : t.id ∈ sk.tasks := by simpa using hcont
    refine ⟨⟨sk, hsk, hid ▸ hmem⟩, t, ht, by simp [hid]⟩

/-- The two derived counters written by the save phase of complete-task,
read back syntactically. -/
theorem completeTaskSave_counts (st : Store) (u : UserDoc) (courseId taskId : Nat) :
    (completeTaskSave st u courseId taskId).2.completedTasksCount
      = (completeTaskSave st u courseId taskId).2.completedTasks.length
    ∧ (completeTaskSave st u courseId taskId).2.totalTasks
      = (allCourseTaskIds st courseId).length := ⟨rfl, rfl⟩

/-- The saved record's completed-task list stays duplicate-free: the task
id is pushed only when absent. -/
theorem completeTaskSave_nodup (st : Store) (u : UserDoc) (courseId taskId : Nat)
    (hset : ∀ q ∈ st.progresses, q.completedTasks.Nodup) :
    (completeTaskSave st u courseId taskId).2.completedTasks.Nodup := by
  have hp0 : (progressOrNew st u.id courseId).completedTasks.Nodup := by
    unfold progressOrNew
    cases hq : findProgress st u.id courseId with
    | none => simp
    | some q =>
      unfold findProgress at hq
      simpa using hset q (List.mem_of_find?_eq_some hq)
  unfold completeTaskSave
  dsimp only
  split
  · exact hp0
  · rename_i hcontains
    have hnotin : taskId ∉ (progressOrNew st u.id courseId).completedTasks := by
      simpa using hcontains
    simp [List.nodup_append, hp0, hnotin]

/-- C1 counterexample: reading student 2's record of `staleStore` through
the coach detailed-progress route answers the STORED `totalTasks` 0, while
the recomputation from the live catalog yields 1 — so this read of a
Progress record performs no recomputation of the derived counts. -/
theorem detailed_read_returns_stale_counts :
    getStudentProgressDetailed staleStore coachUser 1 2
        = .ok {completedTasks := 0, totalTasks := 0, completionPercentage := 0, averageRating := 0}
      ∧ (allCourseTaskIds staleStore 1).length = 1
      ∧ (specReachableTaskIds staleStore 1).card = 1 :=
  ⟨rfl, rfl, by decide⟩

/-- C1 amended: immediately after complete-task, `completedTasksCount`
equals the size of the completed-task set, and `totalTasks` equals the
count of tasks reachable from the course's current skills, both recomputed
from the live catalog; the GET /progress/:courseId read performs the same
recomputation of both counts — but (see the counterexample) not every read
of a Progress record does. -/
theorem completeTask_counts_amended (st : Store) (u : UserDoc) (courseId taskId : Nat)
    (hset : ∀ q ∈ st.progresses, q.completedTasks.Nodup)
    (hcat : (catalogTaskRefs st courseId).Nodup) :
    ((completeTask st u courseId taskId).progress.completedTasksCount
        = (completeTask st u courseId taskId).progress.completedTasks.toFinset.card)
    ∧ ((completeTask st u courseId taskId).progress.totalTasks
        = (specReachableTaskIds st courseId).card)
    ∧ (∀ p, findProgress st u.id courseId = some p →
        ((getProgress st u.id courseId).2.completedTasksCount
            = (getProgress st u.id courseId).2.completedTasks.toFinset.card
          ∧ (getProgress st u.id courseId).2.totalTasks
            = (specReachableTaskIds st courseId).card)) := by
  have htot : (allCourseTaskIds st courseId).length = (specReachableTaskIds st courseId).card := by
    rw [← allCourseTaskIds_toFinset]
    exact (List.toFinset_card_of_nodup (allCourseTaskIds_nodup st courseId hcat)).symm
  refine ⟨?_, ?_, ?_⟩
  · show (completeTaskSave st u courseId taskId).2.completedTasksCount
      = (completeTaskSave st u courseId taskId).2.completedTasks.toFinset.card
    rw [(completeTaskSave_counts st u courseId taskId).1,
      List.toFinset_card_of_nodup (completeTaskSave_nodup st u courseId taskId hset)]
  · show (completeTaskSave st u courseId taskId).2.totalTasks
      = (specReachableTaskIds st courseId).card
    rw [(completeTaskSave_counts st u courseId taskId).2, htot]
  · intro p hp
    unfold getProgress
    rw [hp]
    dsimp only
    constructor
    · show p.completedTasks.length = p.completedTasks.toFinset.card
      unfold findProgress at hp
      exact (List.toFinset_card_of_nodup (hset p (List.mem_of_find?_eq_some hp))).symm
    · exact htot

/-- C1 witness: on `badgeStore` (four prior completions, no skills), the
amended counts hold after completing task 15 of course 1. -/
theorem completeTask_counts_amended_witness :
    (completeTask badgeStore aliceUser 1 15).progress.completedTasksCount
        = (completeTask badgeStore aliceUser 1 15).progress.completedTasks.toFinset.card
      ∧ (completeTask badgeStore aliceUser 1 15).progress.totalTasks
        = (specReachableTaskIds badgeStore 1).card := by
  have h := completeTask_counts_amended badgeStore aliceUser 1 15 (by decide) (by decide)
  exact ⟨h.1, h.2.1⟩

end PingGamify
